import Mathlib

/-!
# polycloudtail: a verification development of `main.go`

The program resolves, for every log group named by the `-g` flag, the most
recently active log stream, and then polls every (group, stream) pair on a
shared ticker, printing what it fetched.

The embedding is state passing over a `Trace`: the ordered list of everything
the program did that is visible from outside (calls to the logging service,
writes to standard output, goroutines launched).  The logging service is an
arbitrary function of the calls made so far and of the request, so that every
sequence of answers is the behaviour of some `Client`.  A dereference of a nil
pointer of a service response is the `Go.panic` result.

What is taken as given: a call to the service returns (with a response or
with an error), and `flag.Parse` accepted the command line.  The period of the
ticker plays no role; the running phase is a step relation in which the ticker
fires and a poller receives from the channel of the ticker.
-/

namespace Polycloudtail

/-! ## Go values -/

/-- A Go `error` value: `errors.New` and `fmt.Errorf` without `%w` give an
`errorString`, `fmt.Errorf` with `%w` gives a `wrapError`, and `external` is an
error value made by the SDK. -/
inductive GoError where
  | errorString (s : String)
  | wrapError (msg : String) (err : GoError)
  | external (s : String)
deriving DecidableEq, Repr

/-- The method `Error()` of an error value. -/
def GoError.Error : GoError → String
  | .errorString s => s
  | .wrapError msg _ => msg
  | .external s => s

/-- The result of running Go code that may panic. -/
inductive Go (α : Type) where
  | ret (a : α)
  | panic
deriving DecidableEq, Repr

/-- Go `errors.New`. -/
def errors.New (text : String) : GoError := .errorString text

/-- The formatting of `fmt.Sprintf` for the verbs the program uses (`%s` and
`%w`, each taking the next operand as text). -/
def fmt.format : List Char → List String → List Char
  | '%' :: _ :: cs, a :: as => a.data ++ fmt.format cs as
  | c :: cs, as => c :: fmt.format cs as
  | [], _ => []

/-- Go `fmt.Sprintf` on operands already rendered as text. -/
def fmt.Sprintf (format : String) (args : List String) : String :=
  ⟨fmt.format format.data args⟩

/-- Go `fmt.Errorf(format, s)` with a string operand: no `%w`, so `errors.New`. -/
def fmt.Errorf (format : String) (arg : String) : GoError :=
  errors.New (fmt.Sprintf format [arg])

/-- Go `fmt.Errorf(format, err)` where the format has the verb `%w`. -/
def fmt.ErrorfW (format : String) (err : GoError) : GoError :=
  .wrapError (fmt.Sprintf format [err.Error]) err

/-- Go `fmt.Sprintln`: the operands separated by one space, then a newline. -/
def fmt.Sprintln (args : List String) : String :=
  " ".intercalate args ++ "\n"

/-! ## The SDK types the program touches (pointer fields are `Option`) -/

/-- The SDK type `types.OrderBy`. -/
inductive OrderBy where
  | LogStreamName
  | LastEventTime
deriving DecidableEq, Repr

/-- The SDK type `cloudwatchlogs.DescribeLogStreamsInput`, the fields the program sets. -/
structure DescribeLogStreamsInput where
  Descending : Option Bool
  OrderBy : OrderBy
  Limit : Option Int
  LogGroupName : Option String
deriving DecidableEq, Repr

/-- The SDK type `types.LogStream`. -/
structure LogStream where
  LogStreamName : Option String
  LastEventTimestamp : Option Int
deriving DecidableEq, Repr

/-- The SDK type `cloudwatchlogs.DescribeLogStreamsOutput`. -/
structure DescribeLogStreamsOutput where
  LogStreams : List LogStream
deriving DecidableEq, Repr

/-- The SDK type `cloudwatchlogs.GetLogEventsInput`, the fields the program sets. -/
structure GetLogEventsInput where
  LogStreamName : Option String
  LogGroupName : Option String
deriving DecidableEq, Repr

/-- The SDK type `types.OutputLogEvent`. -/
structure OutputLogEvent where
  Message : Option String
deriving DecidableEq, Repr

/-- The SDK type `cloudwatchlogs.GetLogEventsOutput`. -/
structure GetLogEventsOutput where
  Events : List OutputLogEvent
deriving DecidableEq, Repr

/-! ## Traces and the logging service -/

/-- A request sent to the logging service. -/
inductive Call where
  | DescribeLogStreams (input : DescribeLogStreamsInput)
  | GetLogEvents (input : GetLogEventsInput)
deriving DecidableEq, Repr

/-- What the program does that can be seen from outside, in order. -/
inductive Event where
  | call (c : Call)
  | stdout (s : String)
  | go (group stream : String)
deriving DecidableEq, Repr

abbrev Trace := List Event

/-- The requests of a trace, in order. -/
def calls : Trace → List Call
  | [] => []
  | .call c :: t => c :: calls t
  | _ :: t => calls t

/-- The writes to standard output of a trace, in order. -/
def stdoutOf : Trace → List String
  | [] => []
  | .stdout s :: t => s :: stdoutOf t
  | _ :: t => stdoutOf t

/-- The number of `GetLogEvents` requests of a trace. -/
def fetchCount : Trace → Nat
  | [] => 0
  | .call (.GetLogEvents _) :: t => fetchCount t + 1
  | _ :: t => fetchCount t

/-- The goroutines a trace launched, in order. -/
def spawned : Trace → List (String × String)
  | [] => []
  | .go g s :: t => (g, s) :: spawned t
  | _ :: t => spawned t

/-- The behaviour of a `*cloudwatchlogs.Client`: the answer to a request may
depend on every request made before it. -/
structure Client where
  DescribeLogStreams : List Call → DescribeLogStreamsInput → Except GoError DescribeLogStreamsOutput
  GetLogEvents : List Call → GetLogEventsInput → Except GoError GetLogEventsOutput

/-- A Go `map[string]string`, as an association list without repeated keys. -/
abbrev GoMap := List (String × String)

/-- The map read `m[k]` with its presence flag. -/
def GoMap.get? (m : GoMap) (k : String) : Option String :=
  match m with
  | [] => none
  | (k', v) :: rest => if k' = k then some v else GoMap.get? rest k

/-- The map write `m[k] = v`. -/
def GoMap.set (m : GoMap) (k v : String) : GoMap :=
  match m with
  | [] => [(k, v)]
  | (k', v') :: rest => if k' = k then (k, v) :: rest else (k', v') :: GoMap.set rest k v

/-- The map after the writes `m[k] = v` for the pairs of a list, in order. -/
def GoMap.setAll (m : GoMap) : List (String × String) → GoMap
  | [] => m
  | (k, v) :: rest => GoMap.setAll (GoMap.set m k v) rest

/-- The type `Service` of the program. -/
structure Service where
  cloudwatchlogs : Client
  streams : GoMap

/-- Go `fmt.Println` on string operands. -/
def fmt.Println (args : List String) (t : Trace) : Trace :=
  t ++ [.stdout (fmt.Sprintln args)]

/-- Go `fmt.Printf` on string operands. -/
def fmt.Printf (format : String) (args : List String) (t : Trace) : Trace :=
  t ++ [.stdout (fmt.Sprintf format args)]

/-! ## `logStream` -/

/-- The request `logStream` builds for a group. -/
def logStreamInput (group : String) : DescribeLogStreamsInput :=
  let limit : Int := 1
  let descending := true
  { Descending := some descending
    OrderBy := OrderBy.LastEventTime
    Limit := some limit
    LogGroupName := some group }

/-- The method `func (s *Service) logStream(ctx, group) (string, error)`. -/
def logStream (s : Service) (group : String) (t : Trace) :
    Go (String × Option GoError) × Trace :=
  let input := logStreamInput group
  let t1 := t ++ [.call (.DescribeLogStreams input)]
  match s.cloudwatchlogs.DescribeLogStreams (calls t) input with
  | .error err =>
    (.ret ("", some (fmt.ErrorfW "failed to describe log group streams: %w" err)), t1)
  | .ok out =>
    match out.LogStreams with
    | [] => (.ret ("", some (fmt.Errorf "no log streams found for group: %s" group)), t1)
    | first :: _ =>
      match first.LogStreamName with
      | none => (.panic, t1)
      | some name => (.ret (name, none), t1)

/-- The event `logStream` leaves in the trace for a group. -/
def describeEvent (group : String) : Event :=
  .call (.DescribeLogStreams (logStreamInput group))

/-! ## `updateStreams` -/

/-- The pieces of a text between the occurrences of a separator character. -/
def splitChars (sep : Char) : List Char → List (List Char)
  | [] => [[]]
  | c :: cs =>
    if c = sep then [] :: splitChars sep cs
    else
      match splitChars sep cs with
      | [] => [[c]]
      | seg :: segs => (c :: seg) :: segs

/-- Go `strings.Split(s, sep)` for a separator of one character. -/
def strings.Split (s : String) (sep : Char) : List String :=
  (splitChars sep s.data).map String.mk

/-- Go `flag.String(name, value, usage)` followed by `flag.Parse()`: a pointer,
never nil, to the value the command line gives the flag, or to the default
`value` when the command line does not have the flag. -/
def flag.String (cmdline : Option String) (value : String) : Option String :=
  some (cmdline.getD value)

/-- The `for _, group := range ...` loop of `updateStreams`. -/
def updateStreamsLoop (s : Service) :
    List String → GoMap → Trace → Go (Option GoError) × GoMap × Trace
  | [], streams, t => (.ret none, streams, t)
  | group :: rest, streams, t =>
    if group = "" then
      (.ret (some (errors.New "log group cannot be empty")), streams, t)
    else
      match logStream s group t with
      | (.panic, t1) => (.panic, streams, t1)
      | (.ret (_, some err), t1) => (.ret (some err), streams, t1)
      | (.ret (stream, none), t1) => updateStreamsLoop s rest (streams.set group stream) t1

/-- The method `func (s *Service) updateStreams(ctx) error`; `cmdline` is the value the
command line gives `-g`, if it has the flag. -/
def updateStreams (s : Service) (cmdline : Option String) (t : Trace) :
    Go (Option GoError) × Service × Trace :=
  match flag.String cmdline "" with
  | none => (.ret (some (errors.New "-g log groups flag is not set")), s, t)
  | some groups =>
    match updateStreamsLoop s (strings.Split groups ',') [] t with
    | (r, streams, t1) => (r, { s with streams := streams }, t1)

/-- Whether resolving the groups one after the other, from a trace, succeeds
with the given streams: `logStream` returns the first stream and no error for
the first group, and so on from the trace it leaves. -/
def resolvesTo (s : Service) : Trace → List String → List String → Bool
  | _, [], [] => true
  | t, group :: groups, stream :: streams =>
    decide ((logStream s group t).1 = .ret (stream, none))
      && resolvesTo s (logStream s group t).2 groups streams
  | _, _, _ => false

/-! ## `fetchStreamLogs` and the poller -/

/-- The `for _, e := range out.Events` loop of `fetchStreamLogs`. -/
def appendMessages : List String → List OutputLogEvent → Go (List String)
  | records, [] => .ret records
  | records, e :: es =>
    match e.Message with
    | none => .panic
    | some message => appendMessages (records ++ [message]) es

/-- The method `func (s *Service) fetchStreamLogs(ctx, group, stream) ([]string, error)`. -/
def fetchStreamLogs (s : Service) (group stream : String) (t : Trace) :
    Go (List String × Option GoError) × Trace :=
  let t1 := fmt.Println ["fetching logs for stream: ", stream, " in group: ", group] t
  let input : GetLogEventsInput := { LogStreamName := some stream, LogGroupName := some group }
  let t2 := t1 ++ [.call (.GetLogEvents input)]
  match s.cloudwatchlogs.GetLogEvents (calls t1) input with
  | .error err => (.ret ([], some err), t2)
  | .ok out =>
    match appendMessages [] out.Events with
    | .panic => (.panic, t2)
    | .ret records => (.ret (records, none), t2)

/-- The number of newline characters of a text: the number of lines a write of
the text puts on standard output. -/
def newlines (s : String) : Nat :=
  s.data.count '\n'

/-- The `for _, log := range logs { fmt.Println(log) }` loop. -/
def printLogs : List String → Trace → Trace
  | [], t => t
  | log :: logs, t => printLogs logs (fmt.Println [log] t)

/-- The body of `case <-ticker.C:` of a poller goroutine: what one poller does
with one tick it received. -/
def pollerTick (s : Service) (group stream : String) (t : Trace) : Go Unit × Trace :=
  match fetchStreamLogs s group stream t with
  | (.panic, t1) => (.panic, t1)
  | (.ret (logs, err), t1) =>
    let t2 :=
      match err with
      | some err =>
        fmt.Printf "failed to fetch logs for stream %s, err: %s\n" [stream, err.Error] t1
      | none => t1
    (.ret (), printLogs logs t2)

/-- The poller goroutine `for { select { case <-ticker.C: ... } }` over the
first `n` ticks it receives. -/
def pollerLoop (s : Service) (group stream : String) : Nat → Trace → Go Unit × Trace
  | 0, t => (.ret (), t)
  | n + 1, t =>
    match pollerTick s group stream t with
    | (.panic, t1) => (.panic, t1)
    | (.ret (), t1) => pollerLoop s group stream n t1

/-! ## `run` and `main` -/

/-- What the process is started with: the outcome of `config.LoadDefaultConfig`
(the client `cloudwatchlogs.NewFromConfig` makes of the configuration, or an
error) and the value of `-g` on the command line, if any. -/
structure Env where
  LoadDefaultConfig : Except GoError Client
  g : Option String

/-- The function `func initCloudWatchClient(ctx) (*cloudwatchlogs.Client, error)`. -/
def initCloudWatchClient (env : Env) : Except GoError Client :=
  match env.LoadDefaultConfig with
  | .error err => .error err
  | .ok cfg => .ok cfg

/-- How `run` ends: it returns an error, or it has launched the pollers and
blocks in `select {}`, or it panicked. -/
inductive RunResult where
  | returned (err : GoError)
  | blocked (s : Service)
  | panicked

/-- The `for group, stream := range s.streams { go func ... }` loop.  Go ranges
over a map in no fixed order; here it is the order of the association list,
and nothing below depends on it. -/
def launch : GoMap → Trace → Trace
  | [], t => t
  | (group, stream) :: rest, t => launch rest (t ++ [.go group stream])

/-- The function `func run() error`, from the start of the process (empty trace). -/
def run (env : Env) : RunResult × Trace :=
  match initCloudWatchClient env with
  | .error err => (.returned err, [])
  | .ok client =>
    match updateStreams { cloudwatchlogs := client, streams := [] } env.g [] with
    | (.panic, _, t) => (.panicked, t)
    | (.ret (some err), _, t) => (.returned err, t)
    | (.ret none, s, t) => (.blocked s, launch s.streams t)

/-- The function `func main()`: the exit status, if the process exits (2 is the status of
a Go process that panicked), and the trace up to there. -/
def main (env : Env) : Option Nat × Trace :=
  match run env with
  | (.returned err, t) => (some 1, fmt.Println [err.Error] t)
  | (.blocked _, t) => (none, t)
  | (.panicked, t) => (some 2, t)

/-! ## The running phase: pollers on the shared ticker -/

/-- The process once `run` blocks: the pollers, each waiting in
`case <-ticker.C`, the number of values waiting in the channel `ticker.C`
(its capacity is 1), and the trace so far. -/
structure Running where
  s : Service
  pollers : List (String × String)
  tickerC : Nat
  trace : Trace
  panicked : Bool

/-- What can happen next: the ticker fires, or the poller of an index
receives from `ticker.C` and runs its body. -/
inductive Step where
  | tick
  | receive (i : Nat)
deriving DecidableEq, Repr

/-- One step.  The ticker sends without blocking and drops the tick when the
channel is full; a receive takes one value out of the channel, so that it
is enabled only when a value waits there. -/
def step (r : Running) : Step → Running
  | .tick => if r.tickerC = 0 then { r with tickerC := 1 } else r
  | .receive i =>
    if r.panicked then r
    else if r.tickerC = 0 then r
    else
      match r.pollers.get? i with
      | none => r
      | some (group, stream) =>
        match pollerTick r.s group stream r.trace with
        | (.ret (), t) => { r with tickerC := r.tickerC - 1, trace := t }
        | (.panic, t) => { r with tickerC := r.tickerC - 1, trace := t, panicked := true }

/-- A schedule of steps, run from a state. -/
def exec (r : Running) : List Step → Running
  | [] => r
  | a :: as => exec (step r a) as

/-- The number of times the ticker fires in a schedule. -/
def ticks : List Step → Nat
  | [] => 0
  | .tick :: as => ticks as + 1
  | .receive _ :: as => ticks as

/-- The state in which `run` blocks for a service with resolved streams. -/
def Running.start (s : Service) (t : Trace) : Running :=
  { s := s, pollers := spawned (launch s.streams t), tickerC := 0, trace := launch s.streams t,
    panicked := false }

/-! ## A fake logging service -/

/-- A stream of the fake service. -/
structure FakeStream where
  name : String
  lastEventTimestamp : Int
deriving DecidableEq, Repr

/-- The order the program asks of the service: most recent last event first. -/
def mostRecentFirst (a b : FakeStream) : Prop :=
  b.lastEventTimestamp ≤ a.lastEventTimestamp

instance : DecidableRel mostRecentFirst :=
  fun a b => inferInstanceAs (Decidable (b.lastEventTimestamp ≤ a.lastEventTimestamp))

instance : IsTotal FakeStream mostRecentFirst :=
  ⟨fun a b => le_total b.lastEventTimestamp a.lastEventTimestamp⟩

instance : IsTrans FakeStream mostRecentFirst :=
  ⟨fun _ _ _ hab hbc => le_trans hbc hab⟩

/-- Modelled from the spec: the fake logging service of testable property 2
("a fake/mock service returning streams with distinct last-event timestamps"),
which is not part of the repository.  It keeps the streams of every group
and answers `DescribeLogStreams` as the request asks: ordered by the requested
key, descending if requested, cut at the limit (50 by default). -/
def fakeDescribeLogStreams (store : String → Option (List FakeStream))
    (input : DescribeLogStreamsInput) : Except GoError DescribeLogStreamsOutput :=
  match input.LogGroupName.bind store with
  | none => .error (.external "ResourceNotFoundException")
  | some streams =>
    let descending := input.Descending = some true
    let ordered : List FakeStream :=
      match input.OrderBy with
      | .LastEventTime =>
        if descending then
          List.insertionSort mostRecentFirst streams
        else
          List.insertionSort
            (fun (a b : FakeStream) => a.lastEventTimestamp ≤ b.lastEventTimestamp) streams
      | .LogStreamName =>
        if descending then List.insertionSort (fun (a b : FakeStream) => ¬ a.name < b.name) streams
        else List.insertionSort (fun (a b : FakeStream) => ¬ b.name < a.name) streams
    .ok { LogStreams := (ordered.take (input.Limit.getD 50).toNat).map
            (fun (f : FakeStream) => { LogStreamName := some f.name
                                       LastEventTimestamp := some f.lastEventTimestamp }) }

/-- The fake service as a client; its log events are not used. -/
def fakeClient (store : String → Option (List FakeStream)) : Client :=
  { DescribeLogStreams := fun _ input => fakeDescribeLogStreams store input
    GetLogEvents := fun _ _ => .ok { Events := [] } }

/-! ## Sample inputs -/

/-- A client whose every group has no stream and no event. -/
def emptyClient : Client :=
  { DescribeLogStreams := fun _ _ => .ok { LogStreams := [] }
    GetLogEvents := fun _ _ => .ok { Events := [] } }

/-- The store of a fake service with one group of three streams. -/
def sampleStore : String → Option (List FakeStream) :=
  fun g =>
    if g = "logsA" then
      some [{ name := "s1", lastEventTimestamp := 10 }, { name := "s3", lastEventTimestamp := 30 },
        { name := "s2", lastEventTimestamp := 20 }]
    else none

/-- A client that answers every listing with one stream, named after the group
with `-stream` added, and every fetch with no event. -/
def echoClient : Client :=
  { DescribeLogStreams := fun _ input =>
      .ok { LogStreams := [{ LogStreamName := some (input.LogGroupName.getD "" ++ "-stream")
                             LastEventTimestamp := none }] }
    GetLogEvents := fun _ _ => .ok { Events := [] } }

/-- A client that answers the first listing as `echoClient` does and fails
every later one, and every fetch. -/
def onceClient : Client :=
  { DescribeLogStreams := fun history input =>
      if history.length = 0 then echoClient.DescribeLogStreams history input
      else .error (.external "ThrottlingException")
    GetLogEvents := fun _ _ => .error (.external "ThrottlingException") }

/-- A client whose every fetch returns the two records "hello" and "world". -/
def helloClient : Client :=
  { DescribeLogStreams := fun _ _ => .ok { LogStreams := [] }
    GetLogEvents := fun _ _ =>
      .ok { Events := [{ Message := some "hello" }, { Message := some "world" }] } }

/-- A process that finds no credentials. -/
def noCredentials : Env :=
  { LoadDefaultConfig := .error (.external "failed to load credentials"), g := some "logsA" }

/-- A process whose command line does not have the flag `-g`. -/
def noFlag : Env :=
  { LoadDefaultConfig := .ok echoClient, g := none }

/-- The service after startup with the two groups of the end-to-end scenario. -/
def twoGroups : Service :=
  { cloudwatchlogs := echoClient, streams := [("logsA", "s1"), ("logsB", "s2")] }

/-! ## Formatting -/

theorem Errorf_no_log_streams (group : String) :
    (fmt.Errorf "no log streams found for group: %s" group).Error
      = "no log streams found for group: " ++ group := by
  apply String.ext
  simp [fmt.Errorf, fmt.Sprintf, fmt.format, errors.New, GoError.Error]

theorem Sprintf_failed_to_fetch (stream e : String) :
    fmt.Sprintf "failed to fetch logs for stream %s, err: %s\n" [stream, e]
      = "failed to fetch logs for stream " ++ stream ++ ", err: " ++ e ++ "\n" := by
  apply String.ext
  simp [fmt.Sprintf, fmt.format]

theorem Sprintln_one (a : String) : fmt.Sprintln [a] = a ++ "\n" := rfl

theorem Sprintln_fetching (stream group : String) :
    fmt.Sprintln ["fetching logs for stream: ", stream, " in group: ", group]
      = "fetching logs for stream:  " ++ stream ++ "  in group:  " ++ group ++ "\n" := by
  apply String.ext
  simp [fmt.Sprintln, String.intercalate, String.intercalate.go]

/-! ## Traces -/

@[simp] theorem calls_append (t u : Trace) : calls (t ++ u) = calls t ++ calls u := by
  induction t with
  | nil => rfl
  | cons e t ih => cases e <;> simp [calls, ih]

@[simp] theorem stdoutOf_append (t u : Trace) : stdoutOf (t ++ u) = stdoutOf t ++ stdoutOf u := by
  induction t with
  | nil => rfl
  | cons e t ih => cases e <;> simp [stdoutOf, ih]

@[simp] theorem fetchCount_append (t u : Trace) :
    fetchCount (t ++ u) = fetchCount t + fetchCount u := by
  induction t with
  | nil => simp [fetchCount]
  | cons e t ih =>
    cases e with
    | call c =>
      cases c
      · simp [fetchCount, ih]
      · simp [fetchCount, ih]; omega
    | stdout s => simp [fetchCount, ih]
    | go g s => simp [fetchCount, ih]

@[simp] theorem spawned_append (t u : Trace) : spawned (t ++ u) = spawned t ++ spawned u := by
  induction t with
  | nil => rfl
  | cons e t ih => cases e <;> simp [spawned, ih]

/-! ## `logStream` -/

theorem logStream_trace (s : Service) (group : String) (t : Trace) :
    (logStream s group t).2 = t ++ [describeEvent group] := by
  unfold logStream describeEvent
  simp only []
  split
  · rfl
  · split
    · rfl
    · split <;> rfl

/-- C3: when the listing of the streams of a group succeeds with zero streams,
`logStream` returns the empty string as its stream and an error whose text is
"no log streams found for group: " followed by the group name. -/
theorem logStream_zero_streams (s : Service) (group : String) (t : Trace)
    (out : DescribeLogStreamsOutput)
    (hcall : s.cloudwatchlogs.DescribeLogStreams (calls t) (logStreamInput group) = .ok out)
    (hzero : out.LogStreams.length = 0) :
    ∃ err, (logStream s group t).1 = .ret ("", some err)
      ∧ err.Error = "no log streams found for group: " ++ group := by
  refine ⟨fmt.Errorf "no log streams found for group: %s" group, ?_, Errorf_no_log_streams group⟩
  have hnil : out.LogStreams = [] := List.length_eq_zero.mp hzero
  simp [logStream, hcall, hnil]

theorem logStream_zero_streams_witness :
    ∃ err, (logStream { cloudwatchlogs := emptyClient, streams := [] } "logsA" []).1
        = .ret ("", some err)
      ∧ err.Error = "no log streams found for group: " ++ "logsA" :=
  logStream_zero_streams { cloudwatchlogs := emptyClient, streams := [] } "logsA" []
    { LogStreams := [] } rfl rfl

theorem fake_logStream (store : String → Option (List FakeStream)) (m : GoMap)
    (group : String) (streams : List FakeStream) (t : Trace) (top : FakeStream)
    (rest : List FakeStream) (hstore : store group = some streams)
    (hsort : List.insertionSort mostRecentFirst streams = top :: rest) :
    (logStream { cloudwatchlogs := fakeClient store, streams := m } group t).1
      = .ret (top.name, none) := by
  simp [logStream, fakeClient, fakeDescribeLogStreams, logStreamInput, hstore, hsort]

/-- C4: for a group of the fake service with at least one stream, the last-event
timestamps of its streams distinct, `logStream` succeeds and returns the name
of the stream whose last-event timestamp is greater than that of every other
stream of the group. -/
theorem logStream_most_recent (store : String → Option (List FakeStream)) (m : GoMap)
    (group : String) (streams : List FakeStream) (t : Trace)
    (hstore : store group = some streams) (hne : streams ≠ [])
    (hdistinct : (streams.map FakeStream.lastEventTimestamp).Nodup) :
    ∃ top, top ∈ streams
      ∧ (∀ x ∈ streams, x ≠ top → x.lastEventTimestamp < top.lastEventTimestamp)
      ∧ (logStream { cloudwatchlogs := fakeClient store, streams := m } group t).1
          = .ret (top.name, none) := by
  have hperm : (List.insertionSort mostRecentFirst streams).Perm streams :=
    List.perm_insertionSort mostRecentFirst streams
  have hsorted : (List.insertionSort mostRecentFirst streams).Sorted mostRecentFirst :=
    List.sorted_insertionSort mostRecentFirst streams
  cases hsort : List.insertionSort mostRecentFirst streams with
  | nil =>
    rw [hsort] at hperm
    exact absurd hperm.symm.eq_nil hne
  | cons top rest =>
    rw [hsort] at hperm hsorted
    refine ⟨top, hperm.subset (List.mem_cons_self top rest), ?_,
      fake_logStream store m group streams t top rest hstore hsort⟩
    intro x hx hxt
    have hx2 : x ∈ top :: rest := hperm.symm.subset hx
    have hxrest : x ∈ rest := by
      rcases List.mem_cons.mp hx2 with h | h
      · exact absurd h hxt
      · exact h
    have hle : x.lastEventTimestamp ≤ top.lastEventTimestamp :=
      List.rel_of_sorted_cons hsorted x hxrest
    have hneq : x.lastEventTimestamp ≠ top.lastEventTimestamp := by
      intro heq
      exact hxt (List.inj_on_of_nodup_map hdistinct hx
        (hperm.subset (List.mem_cons_self top rest)) heq)
    exact lt_of_le_of_ne hle hneq

theorem logStream_most_recent_witness :
    ∃ top, top ∈ ([{ name := "s1", lastEventTimestamp := 10 },
          { name := "s3", lastEventTimestamp := 30 },
          { name := "s2", lastEventTimestamp := 20 }] : List FakeStream)
      ∧ (∀ x ∈ ([{ name := "s1", lastEventTimestamp := 10 },
          { name := "s3", lastEventTimestamp := 30 },
          { name := "s2", lastEventTimestamp := 20 }] : List FakeStream),
          x ≠ top → x.lastEventTimestamp < top.lastEventTimestamp)
      ∧ (logStream { cloudwatchlogs := fakeClient sampleStore, streams := [] } "logsA" []).1
          = .ret (top.name, none) :=
  logStream_most_recent sampleStore [] "logsA" _ [] (by decide) (by decide) (by decide)

/-! ## The map of streams -/

theorem GoMap.get?_set (m : GoMap) (k v k2 : String) :
    GoMap.get? (GoMap.set m k v) k2 = if k = k2 then some v else GoMap.get? m k2 := by
  induction m with
  | nil => simp [GoMap.set, GoMap.get?]
  | cons p rest ih =>
    obtain ⟨k1, v1⟩ := p
    by_cases h1 : k1 = k
    · subst h1
      by_cases h2 : k1 = k2 <;> simp [GoMap.set, GoMap.get?, h2]
    · by_cases h2 : k1 = k2
      · subst h2
        have h3 : ¬ k = k1 := fun h => h1 h.symm
        simp [GoMap.set, GoMap.get?, h1, h3]
      · simp [GoMap.set, GoMap.get?, h1, h2, ih]

theorem GoMap.keys_set (m : GoMap) (k v : String) :
    (GoMap.set m k v).map Prod.fst
      = if k ∈ m.map Prod.fst then m.map Prod.fst else m.map Prod.fst ++ [k] := by
  induction m with
  | nil => simp [GoMap.set]
  | cons p rest ih =>
    obtain ⟨k1, v1⟩ := p
    by_cases h1 : k1 = k
    · subst h1
      simp [GoMap.set]
    · have h3 : ¬ k = k1 := fun h => h1 h.symm
      by_cases h2 : k ∈ rest.map Prod.fst
      · simp only [GoMap.set, h1, if_false, List.map_cons, ih, h2, if_true, List.mem_cons,
          or_true]
      · simp only [GoMap.set, h1, if_false, List.map_cons, ih, h2, List.mem_cons, h3,
          or_self, List.cons_append]

theorem GoMap.setAll_get?_of_not_mem (pairs : List (String × String)) (m : GoMap) (k : String)
    (h : k ∉ pairs.map Prod.fst) : GoMap.get? (GoMap.setAll m pairs) k = GoMap.get? m k := by
  induction pairs generalizing m with
  | nil => rfl
  | cons p rest ih =>
    obtain ⟨k1, v1⟩ := p
    simp only [List.map_cons, List.mem_cons, not_or] at h
    have h1 : ¬ k1 = k := fun e => h.1 e.symm
    simp [GoMap.setAll, ih _ h.2, GoMap.get?_set, h1]

theorem GoMap.setAll_keys_mem (pairs : List (String × String)) (m : GoMap) (k : String) :
    k ∈ (GoMap.setAll m pairs).map Prod.fst ↔ k ∈ m.map Prod.fst ∨ k ∈ pairs.map Prod.fst := by
  induction pairs generalizing m with
  | nil => simp [GoMap.setAll]
  | cons p rest ih =>
    obtain ⟨k1, v1⟩ := p
    rw [GoMap.setAll, ih, GoMap.keys_set]
    by_cases h : k1 ∈ m.map Prod.fst
    · simp only [h, if_true, List.map_cons, List.mem_cons]
      constructor
      · rintro (h1 | h1)
        · exact Or.inl h1
        · exact Or.inr (Or.inr h1)
      · rintro (h1 | h1 | h1)
        · exact Or.inl h1
        · exact Or.inl (h1 ▸ h)
        · exact Or.inr h1
    · simp only [h, if_false, List.map_cons, List.mem_cons, List.mem_append,
        List.mem_singleton]
      tauto

theorem GoMap.setAll_keys_nodup (pairs : List (String × String)) (m : GoMap)
    (h : (m.map Prod.fst).Nodup) : ((GoMap.setAll m pairs).map Prod.fst).Nodup := by
  induction pairs generalizing m with
  | nil => exact h
  | cons p rest ih =>
    obtain ⟨k1, v1⟩ := p
    apply ih
    rw [GoMap.keys_set]
    by_cases h1 : k1 ∈ m.map Prod.fst
    · simpa [h1] using h
    · simp only [h1, if_false]
      exact List.Nodup.append h (List.nodup_singleton k1) (by simpa using h1)

theorem GoMap.setAll_zip_last (g : String) (post : List String) (hpost : g ∉ post) :
    ∀ (pre ns : List String) (m : GoMap), ns.length = (pre ++ g :: post).length →
      ∃ v, ns[pre.length]? = some v
        ∧ GoMap.get? (GoMap.setAll m ((pre ++ g :: post).zip ns)) g = some v := by
  intro pre
  induction pre with
  | nil =>
    intro ns m hlen
    cases ns with
    | nil => simp at hlen
    | cons v ns2 =>
      refine ⟨v, by simp, ?_⟩
      have hk : g ∉ (post.zip ns2).map Prod.fst := by
        intro hmem
        obtain ⟨⟨a, b⟩, hab, rfl⟩ := List.mem_map.mp hmem
        exact hpost (List.of_mem_zip hab).1
      show GoMap.get? (GoMap.setAll (GoMap.set m g v) (post.zip ns2)) g = some v
      rw [GoMap.setAll_get?_of_not_mem _ _ _ hk, GoMap.get?_set]
      simp
  | cons p pre2 ih =>
    intro ns m hlen
    cases ns with
    | nil => simp at hlen
    | cons n ns2 =>
      have hlen2 : ns2.length = (pre2 ++ g :: post).length := by simpa using hlen
      obtain ⟨v, hv, hget⟩ := ih ns2 (GoMap.set m p n) hlen2
      exact ⟨v, by simpa using hv, by simpa [GoMap.setAll] using hget⟩

/-! ## `updateStreams` -/

theorem resolvesTo_length (s : Service) :
    ∀ (groups : List String) (t : Trace) (ns : List String),
      resolvesTo s t groups ns = true → ns.length = groups.length := by
  intro groups
  induction groups with
  | nil =>
    intro t ns h
    cases ns with
    | nil => rfl
    | cons n ns2 => simp [resolvesTo] at h
  | cons g rest ih =>
    intro t ns h
    cases ns with
    | nil => simp [resolvesTo] at h
    | cons n ns2 =>
      simp only [resolvesTo, Bool.and_eq_true] at h
      simp [ih _ _ h.2]

theorem updateStreamsLoop_resolves (s : Service) :
    ∀ (groups : List String) (m : GoMap) (t : Trace) (ns : List String),
      (∀ g ∈ groups, g ≠ "") → resolvesTo s t groups ns = true →
      updateStreamsLoop s groups m t
        = (.ret none, GoMap.setAll m (groups.zip ns), t ++ groups.map describeEvent) := by
  intro groups
  induction groups with
  | nil =>
    intro m t ns _ h
    cases ns with
    | nil => simp [updateStreamsLoop, GoMap.setAll]
    | cons n ns2 => simp [resolvesTo] at h
  | cons g rest ih =>
    intro m t ns hne h
    cases ns with
    | nil => simp [resolvesTo] at h
    | cons n ns2 =>
      simp only [resolvesTo, Bool.and_eq_true, decide_eq_true_eq] at h
      have hg : g ≠ "" := hne g (List.mem_cons_self g rest)
      have hrest : ∀ x ∈ rest, x ≠ "" := fun x hx => hne x (List.mem_cons_of_mem g hx)
      have hpair : logStream s g t = (.ret (n, none), t ++ [describeEvent g]) :=
        Prod.ext h.1 (logStream_trace s g t)
      rw [hpair] at h
      simp only [updateStreamsLoop, hg, if_false, hpair]
      rw [ih _ _ _ hrest h.2]
      simp only [List.zip_cons_cons, GoMap.setAll, List.map_cons, List.append_assoc,
        List.singleton_append]
      rfl

theorem updateStreamsLoop_append (s : Service) (rest : List String) :
    ∀ (pre : List String) (m : GoMap) (t : Trace) (ns : List String),
      (∀ g ∈ pre, g ≠ "") → resolvesTo s t pre ns = true →
      updateStreamsLoop s (pre ++ rest) m t
        = updateStreamsLoop s rest (GoMap.setAll m (pre.zip ns)) (t ++ pre.map describeEvent) := by
  intro pre
  induction pre with
  | nil =>
    intro m t ns _ h
    cases ns with
    | nil => simp [GoMap.setAll]
    | cons n ns2 => simp [resolvesTo] at h
  | cons g pre2 ih =>
    intro m t ns hne h
    cases ns with
    | nil => simp [resolvesTo] at h
    | cons n ns2 =>
      simp only [resolvesTo, Bool.and_eq_true, decide_eq_true_eq] at h
      have hg : g ≠ "" := hne g (List.mem_cons_self g pre2)
      have hrest : ∀ x ∈ pre2, x ≠ "" := fun x hx => hne x (List.mem_cons_of_mem g hx)
      have hpair : logStream s g t = (.ret (n, none), t ++ [describeEvent g]) :=
        Prod.ext h.1 (logStream_trace s g t)
      rw [hpair] at h
      have h2 : resolvesTo s (t ++ [describeEvent g]) pre2 ns2 = true := h.2
      show updateStreamsLoop s (g :: (pre2 ++ rest)) m t = _
      simp only [updateStreamsLoop, hg, if_false, hpair]
      rw [ih _ _ _ hrest h2]
      simp only [List.zip_cons_cons, GoMap.setAll, List.map_cons, List.append_assoc,
        List.singleton_append]
      rfl

theorem updateStreamsLoop_never_nil (s : Service) :
    ∀ (groups : List String) (m : GoMap) (t : Trace), "" ∈ groups →
      (updateStreamsLoop s groups m t).1 ≠ .ret none := by
  intro groups
  induction groups with
  | nil => intro m t h; simp at h
  | cons g rest ih =>
    intro m t h
    by_cases hg : g = ""
    · simp [updateStreamsLoop, hg]
    · have hrest : "" ∈ rest := by
        rcases List.mem_cons.mp h with h1 | h1
        · exact absurd h1.symm hg
        · exact h1
      simp only [updateStreamsLoop, hg, if_false]
      split
      · simp
      · simp
      · exact ih _ _ hrest

theorem takeWhile_nonempty_split :
    ∀ (groups : List String), "" ∈ groups →
      (∀ g ∈ groups.takeWhile (fun g => decide (g ≠ "")), g ≠ "")
        ∧ ∃ post, groups = groups.takeWhile (fun g => decide (g ≠ "")) ++ "" :: post := by
  intro groups
  induction groups with
  | nil => intro h; simp at h
  | cons g rest ih =>
    intro h
    by_cases hg : g = ""
    · subst hg
      exact ⟨by simp, rest, by simp⟩
    · have hrest : "" ∈ rest := by
        rcases List.mem_cons.mp h with h1 | h1
        · exact absurd h1.symm hg
        · exact h1
      obtain ⟨h1, post, h2⟩ := ih hrest
      have htw : (g :: rest).takeWhile (fun g => decide (g ≠ ""))
          = g :: rest.takeWhile (fun g => decide (g ≠ "")) := by
        simp [List.takeWhile_cons, hg]
      rw [htw]
      refine ⟨?_, post, ?_⟩
      · intro x hx
        rcases List.mem_cons.mp hx with hx | hx
        · exact hx ▸ hg
        · exact h1 x hx
      · exact congrArg (List.cons g) h2

/-- C1, as the code has it: when the split of the value of `-g` has an empty
segment, `updateStreams` never returns nil, whatever the service does; and when
stream resolution succeeds for every segment before the first empty one, the
error it returns is "log group cannot be empty". -/
theorem updateStreams_empty_segment (s : Service) (groups : String) (t : Trace)
    (hempty : "" ∈ strings.Split groups ',') :
    (updateStreams s (some groups) t).1 ≠ .ret none
      ∧ ∀ ns, resolvesTo s t
            ((strings.Split groups ',').takeWhile (fun g => decide (g ≠ ""))) ns = true →
          (updateStreams s (some groups) t).1
            = .ret (some (errors.New "log group cannot be empty")) := by
  constructor
  · simpa [updateStreams, flag.String] using
      updateStreamsLoop_never_nil s (strings.Split groups ',') [] t hempty
  · intro ns hres
    obtain ⟨hne, post, hsplit⟩ := takeWhile_nonempty_split _ hempty
    have hloop := updateStreamsLoop_append s ("" :: post) _ [] t ns hne hres
    rw [← hsplit] at hloop
    simp [updateStreams, flag.String, hloop, updateStreamsLoop]

theorem updateStreams_empty_segment_witness :
    (updateStreams { cloudwatchlogs := echoClient, streams := [] } (some "a,,b") []).1
      = .ret (some (errors.New "log group cannot be empty")) :=
  (updateStreams_empty_segment { cloudwatchlogs := echoClient, streams := [] } "a,,b" []
    (by decide)).2 ["a-stream"] (by decide)

/-- C1 fails as stated: with "a," as the value of `-g` and a service that has no
stream for the group "a", the split has an empty segment and the error
`updateStreams` returns is the one of that group, not the one of the empty
segment. -/
theorem updateStreams_empty_segment_counterexample :
    "" ∈ strings.Split "a," ','
      ∧ (updateStreams { cloudwatchlogs := emptyClient, streams := [] } (some "a,") []).1
          = .ret (some (errors.New "no log streams found for group: a"))
      ∧ (updateStreams { cloudwatchlogs := emptyClient, streams := [] } (some "a,") []).1
          ≠ .ret (some (errors.New "log group cannot be empty")) := by
  decide

/-- C2: when every segment of the value of `-g` is non-empty and stream
resolution succeeds for every segment in turn, `updateStreams` returns nil and
leaves a map whose keys are exactly the segments, no key twice, each group
mapped to the stream `logStream` returned for it (for its last occurrence if
the group is named more than once). -/
theorem updateStreams_resolves (s : Service) (groups : String) (t : Trace) (ns : List String)
    (hne : ∀ g ∈ strings.Split groups ',', g ≠ "")
    (hres : resolvesTo s t (strings.Split groups ',') ns = true) :
    (updateStreams s (some groups) t).1 = .ret none
      ∧ (∀ k, k ∈ (updateStreams s (some groups) t).2.1.streams.map Prod.fst
               ↔ k ∈ strings.Split groups ',')
      ∧ ((updateStreams s (some groups) t).2.1.streams.map Prod.fst).Nodup
      ∧ ∀ pre g post, strings.Split groups ',' = pre ++ g :: post → g ∉ post →
          ∃ stream, ns[pre.length]? = some stream
            ∧ GoMap.get? (updateStreams s (some groups) t).2.1.streams g = some stream := by
  have hloop := updateStreamsLoop_resolves s _ [] t ns hne hres
  have hlen := resolvesTo_length s _ t ns hres
  have hkeys : ((strings.Split groups ',').zip ns).map Prod.fst = strings.Split groups ',' :=
    List.map_fst_zip _ _ (le_of_eq hlen.symm)
  have hstreams : (updateStreams s (some groups) t).2.1.streams
      = GoMap.setAll [] ((strings.Split groups ',').zip ns) := by
    simp [updateStreams, flag.String, hloop]
  refine ⟨by simp [updateStreams, flag.String, hloop], ?_, ?_, ?_⟩
  · intro k
    rw [hstreams, GoMap.setAll_keys_mem, hkeys]
    simp
  · rw [hstreams]
    exact GoMap.setAll_keys_nodup ((strings.Split groups ',').zip ns) [] (by simp)
  · intro pre g post hsplit hpost
    rw [hsplit] at hlen
    obtain ⟨v, hv, hget⟩ := GoMap.setAll_zip_last g post hpost pre ns [] hlen
    refine ⟨v, hv, ?_⟩
    rw [hstreams, hsplit]
    exact hget

theorem updateStreams_resolves_witness :
    (updateStreams { cloudwatchlogs := echoClient, streams := [] } (some "a,b,c") []).1
        = .ret none
      ∧ (∀ k, k ∈ (updateStreams { cloudwatchlogs := echoClient, streams := [] }
                (some "a,b,c") []).2.1.streams.map Prod.fst
               ↔ k ∈ strings.Split "a,b,c" ',')
      ∧ ((updateStreams { cloudwatchlogs := echoClient, streams := [] }
            (some "a,b,c") []).2.1.streams.map Prod.fst).Nodup
      ∧ ∀ pre g post, strings.Split "a,b,c" ',' = pre ++ g :: post → g ∉ post →
          ∃ stream, ["a-stream", "b-stream", "c-stream"][pre.length]? = some stream
            ∧ GoMap.get? (updateStreams { cloudwatchlogs := echoClient, streams := [] }
                (some "a,b,c") []).2.1.streams g = some stream :=
  updateStreams_resolves { cloudwatchlogs := echoClient, streams := [] } "a,b,c" []
    ["a-stream", "b-stream", "c-stream"] (by decide) (by decide)

/-- C8: when the groups are non-empty and the first one whose stream resolution
fails is `g`, after the groups `pre`, `updateStreams` returns the error
`logStream` returned for `g`, and the requests it sent to the service are one
listing for each group of `pre` and then one for `g`, in that order, and
nothing for the groups after `g`. -/
theorem updateStreams_first_failure (s : Service) (groups : String) (t : Trace)
    (pre : List String) (g : String) (post ns : List String) (stream : String) (err : GoError)
    (hsplit : strings.Split groups ',' = pre ++ g :: post)
    (hne : ∀ x ∈ pre ++ g :: post, x ≠ "")
    (hres : resolvesTo s t pre ns = true)
    (hfail : (logStream s g (t ++ pre.map describeEvent)).1 = .ret (stream, some err)) :
    (updateStreams s (some groups) t).1 = .ret (some err)
      ∧ (updateStreams s (some groups) t).2.2
          = t ++ (pre ++ [g]).map (fun x => .call (.DescribeLogStreams (logStreamInput x))) := by
  have hpre : ∀ x ∈ pre, x ≠ "" := fun x hx => hne x (List.mem_append_left _ hx)
  have hg : g ≠ "" := hne g (List.mem_append_right _ (List.mem_cons_self g post))
  have hloop := updateStreamsLoop_append s (g :: post) pre [] t ns hpre hres
  have hpair : logStream s g (t ++ pre.map describeEvent)
      = (.ret (stream, some err), t ++ pre.map describeEvent ++ [describeEvent g]) :=
    Prod.ext hfail (logStream_trace s g _)
  rw [← hsplit] at hloop
  constructor
  · simp [updateStreams, flag.String, hloop, updateStreamsLoop, hg, hpair]
  · simp [updateStreams, flag.String, hloop, updateStreamsLoop, hg, hpair]
    rfl

theorem updateStreams_first_failure_witness :
    (updateStreams { cloudwatchlogs := onceClient, streams := [] } (some "a,b,c") []).1
        = .ret (some (fmt.ErrorfW "failed to describe log group streams: %w"
            (.external "ThrottlingException")))
      ∧ (updateStreams { cloudwatchlogs := onceClient, streams := [] } (some "a,b,c") []).2.2
          = [] ++ (["a"] ++ ["b"]).map
              (fun x => .call (.DescribeLogStreams (logStreamInput x))) :=
  updateStreams_first_failure { cloudwatchlogs := onceClient, streams := [] } "a,b,c" []
    ["a"] "b" ["c"] ["a-stream"] "" _ (by decide) (by decide) (by decide) (by decide)

/-! ## The poller -/

theorem appendMessages_texts :
    ∀ (events : List OutputLogEvent) (records msgs : List String),
      events.map OutputLogEvent.Message = msgs.map some →
      appendMessages records events = .ret (records ++ msgs) := by
  intro events
  induction events with
  | nil =>
    intro records msgs h
    cases msgs with
    | nil => simp [appendMessages]
    | cons m ms => simp at h
  | cons e es ih =>
    intro records msgs h
    cases msgs with
    | nil => simp at h
    | cons m ms =>
      simp only [List.map_cons, List.cons.injEq] at h
      simp [appendMessages, h.1, ih _ ms h.2]

theorem printLogs_trace :
    ∀ (logs : List String) (t : Trace),
      printLogs logs t = t ++ logs.map (fun m => Event.stdout (m ++ "\n")) := by
  intro logs
  induction logs with
  | nil => intro t; simp [printLogs]
  | cons m ms ih =>
    intro t
    simp [printLogs, ih, fmt.Println, Sprintln_one]

theorem fetchStreamLogs_trace (s : Service) (group stream : String) (t : Trace) :
    (fetchStreamLogs s group stream t).2
      = t ++ [.stdout ("fetching logs for stream:  " ++ stream ++ "  in group:  " ++ group ++ "\n"),
              .call (.GetLogEvents { LogStreamName := some stream, LogGroupName := some group })] := by
  unfold fetchStreamLogs
  simp only [fmt.Println, Sprintln_fetching]
  split
  · simp
  · split <;> simp

theorem pollerTick_trace (s : Service) (group stream : String) (t : Trace) :
    ∃ rest, (pollerTick s group stream t).2
        = t ++ [.stdout ("fetching logs for stream:  " ++ stream ++ "  in group:  " ++ group ++ "\n"),
                .call (.GetLogEvents { LogStreamName := some stream, LogGroupName := some group })]
            ++ rest
      ∧ ∀ e ∈ rest, ∃ line, e = Event.stdout line := by
  have htrace := fetchStreamLogs_trace s group stream t
  unfold pollerTick
  cases hf : fetchStreamLogs s group stream t with
  | mk r t1 =>
    rw [hf] at htrace
    simp only at htrace
    subst htrace
    cases r with
    | panic => exact ⟨[], by simp, by simp⟩
    | ret p =>
      obtain ⟨logs, err⟩ := p
      cases err with
      | none =>
        refine ⟨logs.map (fun m => Event.stdout (m ++ "\n")), by simp [printLogs_trace], ?_⟩
        intro e he
        obtain ⟨m, _, rfl⟩ := List.mem_map.mp he
        exact ⟨_, rfl⟩
      | some err =>
        refine ⟨Event.stdout (fmt.Sprintf "failed to fetch logs for stream %s, err: %s\n"
            [stream, err.Error]) :: logs.map (fun m => Event.stdout (m ++ "\n")),
          by simp [printLogs_trace, fmt.Printf], ?_⟩
        intro e he
        rcases List.mem_cons.mp he with h | h
        · exact ⟨_, h⟩
        · obtain ⟨m, _, rfl⟩ := List.mem_map.mp h
          exact ⟨_, rfl⟩

theorem fetchCount_of_stdout :
    ∀ (rest : Trace), (∀ e ∈ rest, ∃ line, e = Event.stdout line) → fetchCount rest = 0 := by
  intro rest
  induction rest with
  | nil => intro _; rfl
  | cons e es ih =>
    intro h
    obtain ⟨line, rfl⟩ := h e (List.mem_cons_self e es)
    simpa [fetchCount] using ih (fun x hx => h x (List.mem_cons_of_mem _ hx))

theorem pollerTick_fetchCount (s : Service) (group stream : String) (t : Trace) :
    fetchCount (pollerTick s group stream t).2 = fetchCount t + 1 := by
  obtain ⟨rest, htrace, hrest⟩ := pollerTick_trace s group stream t
  rw [htrace]
  simp [fetchCount, fetchCount_of_stdout rest hrest]

theorem stdoutOf_map_stdout (msgs : List String) :
    stdoutOf (msgs.map (fun m => Event.stdout (m ++ "\n"))) = msgs.map (fun m => m ++ "\n") := by
  induction msgs with
  | nil => rfl
  | cons m ms ih => simp [stdoutOf, ih]

theorem fetching_ne_failed (stream group e : String) :
    "fetching logs for stream:  " ++ stream ++ "  in group:  " ++ group ++ "\n"
      ≠ "failed to fetch logs for stream " ++ stream ++ ", err: " ++ e ++ "\n" := by
  intro h
  have hdata := congrArg String.data h
  simp at hdata

theorem pollerTick_ok (s : Service) (group stream : String) (t : Trace)
    (out : GetLogEventsOutput) (msgs : List String)
    (hfetch : s.cloudwatchlogs.GetLogEvents (calls t)
        { LogStreamName := some stream, LogGroupName := some group } = .ok out)
    (hmsgs : out.Events.map OutputLogEvent.Message = msgs.map some) :
    pollerTick s group stream t
      = (.ret (),
          t ++ [.stdout ("fetching logs for stream:  " ++ stream ++ "  in group:  " ++ group ++ "\n"),
                .call (.GetLogEvents { LogStreamName := some stream, LogGroupName := some group })]
            ++ msgs.map (fun m => Event.stdout (m ++ "\n"))) := by
  have happend := appendMessages_texts out.Events [] msgs hmsgs
  simp only [List.nil_append] at happend
  simp [pollerTick, fetchStreamLogs, fmt.Println, calls, hfetch, happend, printLogs_trace,
    Sprintln_fetching]

theorem pollerTick_error (s : Service) (group stream : String) (t : Trace) (err : GoError)
    (hfetch : s.cloudwatchlogs.GetLogEvents (calls t)
        { LogStreamName := some stream, LogGroupName := some group } = .error err) :
    pollerTick s group stream t
      = (.ret (),
          t ++ [.stdout ("fetching logs for stream:  " ++ stream ++ "  in group:  " ++ group ++ "\n"),
                .call (.GetLogEvents { LogStreamName := some stream, LogGroupName := some group }),
                .stdout ("failed to fetch logs for stream " ++ stream ++ ", err: " ++ err.Error
                  ++ "\n")]) := by
  simp [pollerTick, fetchStreamLogs, fmt.Println, fmt.Printf, calls, hfetch, printLogs,
    Sprintln_fetching, Sprintf_failed_to_fetch]

theorem fetchStreamLogs_ok (s : Service) (group stream : String) (t : Trace)
    (out : GetLogEventsOutput) (msgs : List String)
    (hfetch : s.cloudwatchlogs.GetLogEvents (calls t)
        { LogStreamName := some stream, LogGroupName := some group } = .ok out)
    (hmsgs : out.Events.map OutputLogEvent.Message = msgs.map some) :
    (fetchStreamLogs s group stream t).1 = .ret (msgs, none) := by
  have happend := appendMessages_texts out.Events [] msgs hmsgs
  simp only [List.nil_append] at happend
  simp [fetchStreamLogs, fmt.Println, calls, hfetch, happend]

theorem newlines_record (m : String) (h : '\n' ∉ m.data) : newlines (m ++ "\n") = 1 := by
  have hzero : List.count '\n' m.data = 0 := List.count_eq_zero.mpr h
  simp [newlines, String.data_append, List.count_append, hzero]

/-- C5: when the fetch of a poller tick succeeds with K records, whose message
texts are `msgs`, `fetchStreamLogs` returns these K texts in the order of the
response and the print loop prints exactly K lines after it, one `fmt.Println`
for each record: the message text, unchanged, followed by a newline, in the
same order, and nothing else.  The one other line of the tick is the
fetch-start line, which `fetchStreamLogs` prints before the fetch.  A record
being a single line of text, each of the K writes is one line. -/
theorem pollerTick_prints_records (s : Service) (group stream : String) (t : Trace)
    (out : GetLogEventsOutput) (msgs : List String)
    (hfetch : s.cloudwatchlogs.GetLogEvents (calls t)
        { LogStreamName := some stream, LogGroupName := some group } = .ok out)
    (hmsgs : out.Events.map OutputLogEvent.Message = msgs.map some) :
    (fetchStreamLogs s group stream t).1 = .ret (msgs, none)
      ∧ pollerTick s group stream t
          = (.ret (), (fetchStreamLogs s group stream t).2
              ++ msgs.map (fun m => Event.stdout (m ++ "\n")))
      ∧ (msgs.map (fun m => Event.stdout (m ++ "\n"))).length = out.Events.length
      ∧ stdoutOf (pollerTick s group stream t).2
          = stdoutOf t
            ++ ("fetching logs for stream:  " ++ stream ++ "  in group:  " ++ group ++ "\n")
              :: msgs.map (fun m => m ++ "\n")
      ∧ ((∀ m ∈ msgs, '\n' ∉ m.data) →
          ∀ line ∈ msgs.map (fun m => m ++ "\n"), newlines line = 1) := by
  have hlen : msgs.length = out.Events.length := by
    have h := congrArg List.length hmsgs
    simpa using h.symm
  have htick := pollerTick_ok s group stream t out msgs hfetch hmsgs
  refine ⟨fetchStreamLogs_ok s group stream t out msgs hfetch hmsgs, ?_, by simpa using hlen,
    ?_, ?_⟩
  · rw [htick, fetchStreamLogs_trace]
  · rw [htick]
    simp [stdoutOf, stdoutOf_map_stdout]
  · intro hsingle line hline
    obtain ⟨m, hm, rfl⟩ := List.mem_map.mp hline
    exact newlines_record m (hsingle m hm)

theorem pollerTick_prints_records_witness :
    (fetchStreamLogs { cloudwatchlogs := helloClient, streams := [] } "logsA" "s1" []).1
        = .ret (["hello", "world"], none)
      ∧ pollerTick { cloudwatchlogs := helloClient, streams := [] } "logsA" "s1" []
          = (.ret (), (fetchStreamLogs { cloudwatchlogs := helloClient, streams := [] }
                "logsA" "s1" []).2
              ++ ["hello", "world"].map (fun m => Event.stdout (m ++ "\n")))
      ∧ (["hello", "world"].map (fun m => Event.stdout (m ++ "\n"))).length
          = ([{ Message := some "hello" }, { Message := some "world" }]
              : List OutputLogEvent).length
      ∧ stdoutOf (pollerTick { cloudwatchlogs := helloClient, streams := [] } "logsA" "s1" []).2
          = stdoutOf []
            ++ ("fetching logs for stream:  " ++ "s1" ++ "  in group:  " ++ "logsA" ++ "\n")
              :: ["hello", "world"].map (fun m => m ++ "\n")
      ∧ ((∀ m ∈ ["hello", "world"], '\n' ∉ m.data) →
          ∀ line ∈ ["hello", "world"].map (fun m => m ++ "\n"), newlines line = 1) :=
  pollerTick_prints_records { cloudwatchlogs := helloClient, streams := [] } "logsA" "s1" []
    { Events := [{ Message := some "hello" }, { Message := some "world" }] } ["hello", "world"]
    rfl rfl

/-- C6: when the fetch of a poller tick fails, the tick does not panic, it
prints the fetch-start line and then one line "failed to fetch logs for stream
<stream>, err: <error>", a line other than the fetch-start line, and no record
line; the poller goes on with its next tick, whose fetch is sent. -/
theorem pollerTick_fetch_failure (s : Service) (group stream : String) (t : Trace)
    (err : GoError)
    (hfetch : s.cloudwatchlogs.GetLogEvents (calls t)
        { LogStreamName := some stream, LogGroupName := some group } = .error err) :
    (pollerTick s group stream t).1 = .ret ()
      ∧ stdoutOf (pollerTick s group stream t).2
          = stdoutOf t
            ++ ["fetching logs for stream:  " ++ stream ++ "  in group:  " ++ group ++ "\n",
                "failed to fetch logs for stream " ++ stream ++ ", err: " ++ err.Error ++ "\n"]
      ∧ "fetching logs for stream:  " ++ stream ++ "  in group:  " ++ group ++ "\n"
          ≠ "failed to fetch logs for stream " ++ stream ++ ", err: " ++ err.Error ++ "\n"
      ∧ fetchCount (pollerTick s group stream t).2 = fetchCount t + 1
      ∧ (∀ n, pollerLoop s group stream (n + 1) t
              = pollerLoop s group stream n (pollerTick s group stream t).2)
      ∧ ∃ rest, (pollerLoop s group stream 2 t).2
          = (pollerTick s group stream t).2
            ++ [.stdout ("fetching logs for stream:  " ++ stream ++ "  in group:  " ++ group
                  ++ "\n"),
                .call (.GetLogEvents { LogStreamName := some stream, LogGroupName := some group })]
            ++ rest := by
  have htick := pollerTick_error s group stream t err hfetch
  have hloop : ∀ n, pollerLoop s group stream (n + 1) t
      = pollerLoop s group stream n (pollerTick s group stream t).2 := by
    intro n
    rw [pollerLoop, htick]
  refine ⟨by rw [htick], by rw [htick]; simp [stdoutOf],
    fetching_ne_failed stream group err.Error, pollerTick_fetchCount s group stream t, hloop, ?_⟩
  obtain ⟨rest, hrest, _⟩ := pollerTick_trace s group stream (pollerTick s group stream t).2
  refine ⟨rest, ?_⟩
  rw [hloop 1, ← hrest]
  generalize (pollerTick s group stream t).2 = t1
  unfold pollerLoop
  split
  · rename_i t2 heq
    rw [heq]
  · rename_i t2 heq
    rw [heq]
    rfl

theorem pollerTick_fetch_failure_witness :
    (pollerTick { cloudwatchlogs := onceClient, streams := [] } "logsB" "s2" []).1 = .ret ()
      ∧ stdoutOf (pollerTick { cloudwatchlogs := onceClient, streams := [] } "logsB" "s2" []).2
          = stdoutOf []
            ++ ["fetching logs for stream:  " ++ "s2" ++ "  in group:  " ++ "logsB" ++ "\n",
                "failed to fetch logs for stream " ++ "s2" ++ ", err: "
                  ++ (GoError.external "ThrottlingException").Error ++ "\n"]
      ∧ "fetching logs for stream:  " ++ "s2" ++ "  in group:  " ++ "logsB" ++ "\n"
          ≠ "failed to fetch logs for stream " ++ "s2" ++ ", err: "
              ++ (GoError.external "ThrottlingException").Error ++ "\n"
      ∧ fetchCount (pollerTick { cloudwatchlogs := onceClient, streams := [] } "logsB" "s2" []).2
          = fetchCount [] + 1
      ∧ (∀ n, pollerLoop { cloudwatchlogs := onceClient, streams := [] } "logsB" "s2" (n + 1) []
              = pollerLoop { cloudwatchlogs := onceClient, streams := [] } "logsB" "s2" n
                  (pollerTick { cloudwatchlogs := onceClient, streams := [] } "logsB" "s2" []).2)
      ∧ ∃ rest, (pollerLoop { cloudwatchlogs := onceClient, streams := [] } "logsB" "s2" 2 []).2
          = (pollerTick { cloudwatchlogs := onceClient, streams := [] } "logsB" "s2" []).2
            ++ [.stdout ("fetching logs for stream:  " ++ "s2" ++ "  in group:  " ++ "logsB"
                  ++ "\n"),
                .call (.GetLogEvents { LogStreamName := some "s2", LogGroupName := some "logsB" })]
            ++ rest :=
  pollerTick_fetch_failure { cloudwatchlogs := onceClient, streams := [] } "logsB" "s2" []
    (.external "ThrottlingException") rfl

theorem double_ne_single (stream group : String) :
    "fetching logs for stream:  " ++ stream ++ "  in group:  " ++ group ++ "\n"
      ≠ "fetching logs for stream: " ++ stream ++ " in group: " ++ group ++ "\n" := by
  intro h
  have hlen := congrArg String.length h
  simp only [String.length_append] at hlen
  have h1 : "fetching logs for stream:  ".length = 27 := by decide
  have h2 : "fetching logs for stream: ".length = 26 := by decide
  have h3 : "  in group:  ".length = 13 := by decide
  have h4 : " in group: ".length = 11 := by decide
  omega

/-- C7 does not hold of the code: every poller tick first prints its fetch-start
line, then sends its one fetch, and everything it does after that is printing
lines, as the claim has it; but the line `fmt.Println` prints is "fetching logs
for stream:  <stream>  in group:  <group>", with a space between the operands
next to the spaces of the literals, and that is never the single-spaced line
of the claim.  For the stream "s1" of the group "logsA" the single-spaced line
is nowhere in what the tick does. -/
theorem pollerTick_fetch_start :
    (∀ (s : Service) (group stream : String) (t : Trace),
        ∃ rest, (pollerTick s group stream t).2
            = t ++ [.stdout (fmt.Sprintln
                      ["fetching logs for stream: ", stream, " in group: ", group]),
                    .call (.GetLogEvents
                      { LogStreamName := some stream, LogGroupName := some group })]
                ++ rest
          ∧ ∀ e ∈ rest, ∃ line, e = Event.stdout line)
      ∧ (∀ stream group : String,
          fmt.Sprintln ["fetching logs for stream: ", stream, " in group: ", group]
            ≠ "fetching logs for stream: " ++ stream ++ " in group: " ++ group ++ "\n")
      ∧ (pollerTick { cloudwatchlogs := helloClient, streams := [] } "logsA" "s1" []).2
          = [.stdout "fetching logs for stream:  s1  in group:  logsA\n",
             .call (.GetLogEvents { LogStreamName := some "s1", LogGroupName := some "logsA" }),
             .stdout "hello\n", .stdout "world\n"]
      ∧ Event.stdout "fetching logs for stream: s1 in group: logsA\n"
          ∉ (pollerTick { cloudwatchlogs := helloClient, streams := [] } "logsA" "s1" []).2
      ∧ Event.stdout "fetching logs for stream: s1 in group: logsA"
          ∉ (pollerTick { cloudwatchlogs := helloClient, streams := [] } "logsA" "s1" []).2 := by
  refine ⟨?_, ?_, by decide, by decide, by decide⟩
  · intro s group stream t
    rw [Sprintln_fetching]
    exact pollerTick_trace s group stream t
  · intro stream group
    rw [Sprintln_fetching]
    exact double_ne_single stream group

/-! ## `run` and `main` -/

theorem updateStreamsLoop_trace (s : Service) :
    ∀ (groups : List String) (m : GoMap) (t : Trace),
      ∃ gs : List String, (updateStreamsLoop s groups m t).2.2 = t ++ gs.map describeEvent := by
  intro groups
  induction groups with
  | nil => intro m t; exact ⟨[], by simp [updateStreamsLoop]⟩
  | cons g rest ih =>
    intro m t
    by_cases hg : g = ""
    · exact ⟨[], by simp [updateStreamsLoop, hg]⟩
    · have htrace := logStream_trace s g t
      simp only [updateStreamsLoop, hg, if_false]
      cases hl : logStream s g t with
      | mk r t1 =>
        rw [hl] at htrace
        simp only at htrace
        subst htrace
        cases r with
        | panic => exact ⟨[g], by simp⟩
        | ret p =>
          obtain ⟨stream, err⟩ := p
          cases err with
          | some err => exact ⟨[g], by simp⟩
          | none =>
            obtain ⟨gs, hgs⟩ := ih (GoMap.set m g stream) (t ++ [describeEvent g])
            exact ⟨g :: gs, by simp [hgs]⟩

theorem updateStreams_trace (s : Service) (cmdline : Option String) (t : Trace) :
    ∃ gs : List String, (updateStreams s cmdline t).2.2 = t ++ gs.map describeEvent := by
  obtain ⟨gs, hgs⟩ := updateStreamsLoop_trace s (strings.Split (cmdline.getD "") ',') [] t
  exact ⟨gs, by simpa [updateStreams, flag.String] using hgs⟩

theorem describe_only (gs : List String) :
    fetchCount (gs.map describeEvent) = 0 ∧ spawned (gs.map describeEvent) = []
      ∧ stdoutOf (gs.map describeEvent) = [] := by
  induction gs with
  | nil => exact ⟨rfl, rfl, rfl⟩
  | cons g rest ih => simpa [describeEvent, fetchCount, spawned, stdoutOf] using ih

theorem launch_trace :
    ∀ (m : GoMap) (t : Trace), launch m t = t ++ m.map (fun p => Event.go p.1 p.2) := by
  intro m
  induction m with
  | nil => intro t; simp [launch]
  | cons p rest ih =>
    intro t
    obtain ⟨g, st⟩ := p
    simp [launch, ih]

theorem launch_fetchCount (m : GoMap) (t : Trace) : fetchCount (launch m t) = fetchCount t := by
  rw [launch_trace, fetchCount_append]
  have h : fetchCount (m.map (fun p => Event.go p.1 p.2)) = 0 := by
    induction m with
    | nil => rfl
    | cons p rest ih => simpa [fetchCount] using ih
  omega

/-- C9: whenever the client bootstrap or `updateStreams` returns an error, `run`
returns that error, no poller goroutine has been launched and no `GetLogEvents`
request has been sent, and `main` prints the text of the error as its only
line on standard output and exits with status 1; when `-g` is missing or is
the empty string, `updateStreams` returns the error "log group cannot be
empty"; and whenever the value of `-g` has an empty segment the process exits
with no poller goroutine launched and no `GetLogEvents` request sent. -/
theorem run_startup_error (env : Env) :
    (∀ err,
        (env.LoadDefaultConfig = .error err
          ∨ ∃ client, env.LoadDefaultConfig = .ok client
              ∧ (updateStreams { cloudwatchlogs := client, streams := [] } env.g []).1
                  = .ret (some err)) →
        (run env).1 = .returned err
          ∧ spawned (run env).2 = []
          ∧ fetchCount (run env).2 = 0
          ∧ (main env).1 = some 1
          ∧ stdoutOf (main env).2 = [err.Error ++ "\n"]
          ∧ spawned (main env).2 = []
          ∧ fetchCount (main env).2 = 0)
      ∧ (∀ client, env.LoadDefaultConfig = .ok client → (env.g = none ∨ env.g = some "") →
          (updateStreams { cloudwatchlogs := client, streams := [] } env.g []).1
            = .ret (some (errors.New "log group cannot be empty")))
      ∧ ("" ∈ strings.Split (env.g.getD "") ',' →
          (main env).1 ≠ none ∧ spawned (main env).2 = [] ∧ fetchCount (main env).2 = 0) := by
  refine ⟨?_, ?_, ?_⟩
  · intro err h
    rcases h with h | ⟨client, hclient, hupdate⟩
    · have hrun : run env = (.returned err, []) := by
        simp [run, initCloudWatchClient, h]
      simp [main, hrun, fmt.Println, Sprintln_one, spawned, fetchCount, stdoutOf]
    · obtain ⟨gs, hgs⟩ :=
        updateStreams_trace { cloudwatchlogs := client, streams := [] } env.g []
      obtain ⟨h1, h2, h3⟩ := describe_only gs
      cases hu : updateStreams { cloudwatchlogs := client, streams := [] } env.g [] with
      | mk r rest =>
        obtain ⟨s2, t2⟩ := rest
        rw [hu] at hupdate hgs
        simp only at hupdate hgs
        subst hupdate
        have ht2 : t2 = gs.map describeEvent := by simpa using hgs
        subst ht2
        have hrun : run env = (.returned err, gs.map describeEvent) := by
          simp [run, initCloudWatchClient, hclient, hu]
        simp [main, hrun, fmt.Println, Sprintln_one, spawned, fetchCount, stdoutOf, h1, h2, h3]
  · intro client _ hg
    rcases hg with hg | hg <;> rw [hg] <;> rfl
  · intro hempty
    cases hcfg : env.LoadDefaultConfig with
    | error err =>
      have hrun : run env = (.returned err, []) := by
        simp [run, initCloudWatchClient, hcfg]
      simp [main, hrun, fmt.Println, spawned, fetchCount]
    | ok client =>
      obtain ⟨gs, hgs⟩ :=
        updateStreams_trace { cloudwatchlogs := client, streams := [] } env.g []
      obtain ⟨h1, h2, _⟩ := describe_only gs
      have hnever : (updateStreams { cloudwatchlogs := client, streams := [] } env.g []).1
          ≠ .ret none := by
        simpa [updateStreams, flag.String] using
          updateStreamsLoop_never_nil { cloudwatchlogs := client, streams := [] }
            (strings.Split (env.g.getD "") ',') [] [] hempty
      cases hu : updateStreams { cloudwatchlogs := client, streams := [] } env.g [] with
      | mk r rest =>
        obtain ⟨s2, t2⟩ := rest
        rw [hu] at hnever hgs
        simp only at hnever hgs
        have ht2 : t2 = gs.map describeEvent := by simpa using hgs
        subst ht2
        cases r with
        | panic =>
          have hrun : run env = (.panicked, gs.map describeEvent) := by
            simp [run, initCloudWatchClient, hcfg, hu]
          simp [main, hrun, h1, h2]
        | ret e =>
          cases e with
          | none => exact absurd rfl hnever
          | some err =>
            have hrun : run env = (.returned err, gs.map describeEvent) := by
              simp [run, initCloudWatchClient, hcfg, hu]
            simp [main, hrun, fmt.Println, spawned, fetchCount, h1, h2]

theorem run_startup_error_witness :
    ((run noCredentials).1 = .returned (.external "failed to load credentials")
        ∧ spawned (run noCredentials).2 = []
        ∧ fetchCount (run noCredentials).2 = 0
        ∧ (main noCredentials).1 = some 1
        ∧ stdoutOf (main noCredentials).2
            = [(GoError.external "failed to load credentials").Error ++ "\n"]
        ∧ spawned (main noCredentials).2 = []
        ∧ fetchCount (main noCredentials).2 = 0)
      ∧ (updateStreams { cloudwatchlogs := echoClient, streams := [] } noFlag.g []).1
          = .ret (some (errors.New "log group cannot be empty"))
      ∧ ((main noFlag).1 ≠ none ∧ spawned (main noFlag).2 = [] ∧ fetchCount (main noFlag).2 = 0) :=
  ⟨(run_startup_error noCredentials).1 _ (Or.inl rfl),
    (run_startup_error noFlag).2.1 echoClient rfl (Or.inl rfl),
    (run_startup_error noFlag).2.2 (by decide)⟩

/-! ## The shared ticker -/

theorem step_fetches (r : Running) (a : Step) :
    fetchCount (step r a).trace + (step r a).tickerC
      ≤ fetchCount r.trace + r.tickerC + ticks [a] := by
  cases a with
  | tick =>
    by_cases h : r.tickerC = 0
    · simp [step, h, ticks]
    · simp [step, h, ticks]
  | receive i =>
    simp only [step, ticks]
    split
    · omega
    · split
      · omega
      · rename_i hpos
        split
        · omega
        · rename_i group stream _
          have hcount := pollerTick_fetchCount r.s group stream r.trace
          split
          · rename_i t heq
            rw [heq] at hcount
            simp only at hcount ⊢
            omega
          · rename_i t heq
            rw [heq] at hcount
            simp only at hcount ⊢
            omega

theorem ticks_cons (a : Step) (as : List Step) : ticks (a :: as) = ticks [a] + ticks as := by
  cases a
  · simp [ticks]; omega
  · simp [ticks]

theorem exec_fetches :
    ∀ (steps : List Step) (r : Running),
      fetchCount (exec r steps).trace + (exec r steps).tickerC
        ≤ fetchCount r.trace + r.tickerC + ticks steps := by
  intro steps
  induction steps with
  | nil => intro r; simp [exec, ticks]
  | cons a as ih =>
    intro r
    have h1 := ih (step r a)
    have h2 := step_fetches r a
    rw [ticks_cons]
    simp only [exec]
    omega

/-- C10 does not hold of the code: a value of the one channel `ticker.C` is
received by one poller, so that in every schedule the pollers together send at
most as many fetches as the ticker fired; with the two pollers of
`-g logsA,logsB`, one tick gives one fetch, by the poller that received it, and
the receive of the other poller stays blocked. -/
theorem shared_ticker_one_fetch_per_tick :
    (∀ (s : Service) (t : Trace) (steps : List Step),
        fetchCount (exec (Running.start s t) steps).trace ≤ fetchCount t + ticks steps)
      ∧ (Running.start twoGroups []).pollers = [("logsA", "s1"), ("logsB", "s2")]
      ∧ calls (exec (Running.start twoGroups []) [.tick, .receive 0, .receive 1]).trace
          = [.GetLogEvents { LogStreamName := some "s1", LogGroupName := some "logsA" }]
      ∧ calls (exec (Running.start twoGroups []) [.tick, .receive 1, .receive 0]).trace
          = [.GetLogEvents { LogStreamName := some "s2", LogGroupName := some "logsB" }] := by
  refine ⟨?_, by decide, by decide, by decide⟩
  intro s t steps
  have h := exec_fetches steps (Running.start s t)
  have hstart : fetchCount (Running.start s t).trace = fetchCount t := launch_fetchCount _ _
  have hc : (Running.start s t).tickerC = 0 := rfl
  omega

/-! ## `strings.Split` -/

theorem splitChars_ne_nil (sep : Char) (cs : List Char) : splitChars sep cs ≠ [] := by
  cases cs with
  | nil => simp [splitChars]
  | cons c cs =>
    simp only [splitChars]
    split
    · simp
    · split <;> simp

/-- The pieces of a split, joined by the separator, are the text again. -/
theorem splitChars_join (sep : Char) :
    ∀ cs : List Char, List.intercalate [sep] (splitChars sep cs) = cs := by
  intro cs
  induction cs with
  | nil => simp [splitChars, List.intercalate]
  | cons c cs ih =>
    have hne := splitChars_ne_nil sep cs
    cases hs : splitChars sep cs with
    | nil => exact absurd hs hne
    | cons seg segs =>
      rw [hs] at ih
      by_cases hc : c = sep
      · subst hc
        simp only [splitChars, if_true, hs]
        simp only [List.intercalate, List.intersperse, List.flatten] at ih ⊢
        simp [ih]
      · simp only [splitChars, hc, if_false, hs]
        cases segs with
        | nil =>
          simp only [List.intercalate, List.intersperse, List.flatten, List.append_nil] at ih ⊢
          rw [ih]
        | cons seg2 segs2 =>
          simp only [List.intercalate, List.intersperse, List.flatten] at ih ⊢
          simp [← ih]

/-- No piece of a split has the separator in it. -/
theorem splitChars_no_sep (sep : Char) :
    ∀ cs : List Char, ∀ seg ∈ splitChars sep cs, sep ∉ seg := by
  intro cs
  induction cs with
  | nil => simp [splitChars]
  | cons c cs ih =>
    intro seg hseg
    by_cases hc : c = sep
    · simp only [splitChars, hc, if_true, List.mem_cons] at hseg
      rcases hseg with h | h
      · simp [h]
      · exact ih seg h
    · simp only [splitChars, hc, if_false] at hseg
      cases hs : splitChars sep cs with
      | nil => exact absurd hs (splitChars_ne_nil sep cs)
      | cons seg1 segs =>
        rw [hs] at hseg ih
        simp only [List.mem_cons] at hseg
        rcases hseg with h | h
        · subst h
          have h1 := ih seg1 (List.mem_cons_self _ _)
          simp only [List.mem_cons, not_or]
          exact ⟨fun e => hc e.symm, h1⟩
        · exact ih seg (List.mem_cons_of_mem _ h)

/-- The split of the values of `-g` the specification names. -/
theorem Split_samples :
    strings.Split "a,,b" ',' = ["a", "", "b"] ∧ strings.Split "" ',' = [""]
      ∧ strings.Split "a," ',' = ["a", ""] ∧ strings.Split ",a" ',' = ["", "a"]
      ∧ strings.Split "a,b,c" ',' = ["a", "b", "c"] := by
  decide

/-- The map `updateStreams` leaves for `-g a,b,c`, and the stream the program
picks among the three of the sample store. -/
theorem startup_samples :
    (updateStreams { cloudwatchlogs := echoClient, streams := [] } (some "a,b,c") []).2.1.streams
        = [("a", "a-stream"), ("b", "b-stream"), ("c", "c-stream")]
      ∧ (logStream { cloudwatchlogs := fakeClient sampleStore, streams := [] } "logsA" []).1
          = .ret ("s3", none) := by
  decide

end Polycloudtail
